import Mathlib

/-!
Shallow embedding of `rive-rs` (files `src/rive-rs/src/artboard/mod.rs` and
`src/examples/viewer/src/main.rs`), together with theorems settling the
specification's claims about artboard instantiation, ownership, the `Scene`
implementation of a bare `Artboard`, and the per-frame advance-and-draw
sequence.

Rust `f32` values are modelled as exact rationals (`ℚ`), `u32`/`usize` as
`Nat`, byte buffers as `List Nat`, and fallible or panicking code by explicit
result types.  Pieces of the crate that are not in the provided sources
(the FFI layer, `file.rs`, `scene.rs`, `renderer.rs`, `instantiate.rs`,
`linear_animation.rs`) are modelled from the spec and carry a doc comment
saying so.
-/

namespace RiveRs

/-- A 2-D affine transform serialised as the six coefficients
`[a, b, c, d, tx, ty]` (row-major, mapping `x' = a*x + c*y + tx`,
`y' = b*x + d*y + ty`), matching the `[f32; 6]` arrays of the source. -/
structure Affine where
  a : ℚ
  b : ℚ
  c : ℚ
  d : ℚ
  tx : ℚ
  ty : ℚ
  deriving DecidableEq, Repr

/-- Application of an affine transform to a point. -/
def Affine.apply (t : Affine) (p : ℚ × ℚ) : ℚ × ℚ :=
  (t.a * p.1 + t.c * p.2 + t.tx, t.b * p.1 + t.d * p.2 + t.ty)

/-- Modelled from the spec (§6, "Viewport transform math"; the computation
lives in the missing FFI entry point `rive_rs_artboard_instance_transforms`):
the uniform content-to-surface scale `s = min(sw/cw, sh/ch)` for content size
`(cw, ch)` and surface size `(sw, sh)`. -/
def viewScale (cw ch sw sh : ℚ) : ℚ :=
  min (sw / cw) (sh / ch)

/-- Modelled from the spec (§6): the forward view transform
`[s, 0, 0, s, (sw - cw*s)/2, (sh - ch*s)/2]`, fitting content proportionally
and centering it. -/
def viewTransform (cw ch sw sh : ℚ) : Affine :=
  let s := viewScale cw ch sw sh
  ⟨s, 0, 0, s, (sw - cw * s) / 2, (sh - ch * s) / 2⟩

/-- Modelled from the spec (§6): the inverse of the forward view transform,
the second out-parameter of `rive_rs_artboard_instance_transforms`. -/
def inverseViewTransform (cw ch sw sh : ℚ) : Affine :=
  let s := viewScale cw ch sw sh
  ⟨1 / s, 0, 0, 1 / s, -((sw - cw * s) / 2) / s, -((sh - ch * s) / 2) / s⟩

/-- Modelled from the spec (§4.1): the `Handle` enum of the missing
`instantiate.rs` — `{Default, Index(n), Name(s)}`; the name is carried as its
UTF-8 bytes, as the source passes `name.as_ptr(), name.len()` across the FFI. -/
inductive Handle where
  | default : Handle
  | index (n : Nat) : Handle
  | name (s : List Nat) : Handle
  deriving DecidableEq, Repr

/-- The data of one raw artboard held behind the FFI: its component-name bytes
and intrinsic size (read by the missing FFI accessors `rive_rs_component_name`,
`rive_rs_artboard_width`, `rive_rs_artboard_height`). -/
structure RawArtboard where
  nameBytes : List Nat
  width : ℚ
  height : ℚ
  deriving DecidableEq, Repr

/-- The parsed contents of a `File` reachable through the FFI: its list of
artboards, in file order. -/
structure FfiFile where
  artboards : List RawArtboard
  deriving DecidableEq, Repr

/-- Modelled from the spec (§4.3; the missing FFI entry point
`rive_rs_instantiate_artboard`): `None` resolves the primary/first artboard,
`Some i` resolves the `i`-th positionally, out-of-range yields no artboard. -/
def rive_rs_instantiate_artboard (f : FfiFile) (index : Option Nat) :
    Option RawArtboard :=
  match index with
  | none => f.artboards.head?
  | some i => f.artboards.get? i

/-- Modelled from the spec (§4.3; the missing FFI entry point
`rive_rs_instantiate_artboard_by_name`): resolve by exact identifier match;
no match yields no artboard. -/
def rive_rs_instantiate_artboard_by_name (f : FfiFile) (n : List Nat) :
    Option RawArtboard :=
  f.artboards.find? (fun a => a.nameBytes = n)

/-- The reference-count state of one `File` wrapper and the single `Artboard`
wrapper derived from it, as produced by `Arc` clone/drop semantics together
with the `Drop` impls of `FileInner` and `ArtboardInner`.  `fileStrong` is the
strong count of the `Arc<FileInner>`, `fileReleases` counts runs of the
engine release for the file resource (`FileInner::drop`), `artStrong` the
strong count of the `Arc<ArtboardInner>`, and `artReleases` counts runs of
`rive_rs_artboard_instance_release` (`ArtboardInner::drop`). -/
structure RcState where
  fileStrong : Nat
  fileReleases : Nat
  artStrong : Nat
  artReleases : Nat
  deriving DecidableEq, Repr

/-- Modelled from the spec (§3, "Asset File"; `file.rs` is not in the provided
sources): after `File::new` succeeds the host holds the single strong
reference to the `Arc<FileInner>`, and no derived artboard exists yet. -/
def fileNew : RcState :=
  ⟨1, 0, 0, 0⟩

/-- Dropping one strong reference to the `Arc<FileInner>`: when it is the last
one, `FileInner::drop` runs and releases the engine file resource exactly
once (standard `Arc` drop semantics). -/
def dropFileRef (s : RcState) : RcState :=
  if s.fileStrong = 1 then
    { s with fileStrong := 0, fileReleases := s.fileReleases + 1 }
  else
    { s with fileStrong := s.fileStrong - 1 }

/-- Dropping one strong reference to the `Arc<ArtboardInner>`: when it is the
last one, `ArtboardInner::drop` runs — it calls
`rive_rs_artboard_instance_release` and then drops the `_file` field, an
`Arc<FileInner>`, which decrements the file's strong count in turn. -/
def dropArtboardRef (s : RcState) : RcState :=
  if s.artStrong = 1 then
    dropFileRef { s with artStrong := 0, artReleases := s.artReleases + 1 }
  else
    { s with artStrong := s.artStrong - 1 }

/-- `<Artboard as Instantiate>::instantiate` (artboard/mod.rs:67-98): match on
the handle and call the corresponding FFI resolver; on `None` return `None`
with no allocation and no clone of the parent's wrapper; on `Some`, build the
new `ArtboardInner` holding `file.as_inner().clone()` — one fresh strong
reference to the file — inside a fresh `Arc` (strong count 1).  The model
tracks the single artboard instance the claims are about. -/
def Artboard.instantiate (st : RcState) (f : FfiFile) (h : Handle) :
    Option RawArtboard × RcState :=
  let raw_artboard : Option RawArtboard :=
    match h with
    | .default => rive_rs_instantiate_artboard f none
    | .index i => rive_rs_instantiate_artboard f (some i)
    | .name n => rive_rs_instantiate_artboard_by_name f n
  match raw_artboard with
  | none => (none, st)
  | some r =>
      (some r, { st with fileStrong := st.fileStrong + 1, artStrong := 1 })

/-- Whether a byte is a UTF-8 continuation byte (`0x80 ..= 0xBF`). -/
def isCont (b : Nat) : Bool :=
  0x80 ≤ b && b ≤ 0xBF

/-- UTF-8 validity of a byte sequence, as checked by `core::str::from_utf8`
(which `Artboard::name` calls): ASCII, two-byte `C2..DF`, three-byte with the
overlong/surrogate exclusions at `E0`/`ED`, four-byte with the range
exclusions at `F0`/`F4`. -/
def utf8Valid : List Nat → Bool
  | [] => true
  | b :: rest =>
    if b ≤ 0x7F then
      utf8Valid rest
    else if 0xC2 ≤ b && b ≤ 0xDF then
      match rest with
      | c :: rest => isCont c && utf8Valid rest
      | [] => false
    else if b = 0xE0 then
      match rest with
      | c1 :: c2 :: rest =>
          (0xA0 ≤ c1 && c1 ≤ 0xBF) && isCont c2 && utf8Valid rest
      | _ => false
    else if (0xE1 ≤ b && b ≤ 0xEC) || (0xEE ≤ b && b ≤ 0xEF) then
      match rest with
      | c1 :: c2 :: rest => isCont c1 && isCont c2 && utf8Valid rest
      | _ => false
    else if b = 0xED then
      match rest with
      | c1 :: c2 :: rest =>
          (0x80 ≤ c1 && c1 ≤ 0x9F) && isCont c2 && utf8Valid rest
      | _ => false
    else if b = 0xF0 then
      match rest with
      | c1 :: c2 :: c3 :: rest =>
          (0x90 ≤ c1 && c1 ≤ 0xBF) && isCont c2 && isCont c3 && utf8Valid rest
      | _ => false
    else if 0xF1 ≤ b && b ≤ 0xF3 then
      match rest with
      | c1 :: c2 :: c3 :: rest =>
          isCont c1 && isCont c2 && isCont c3 && utf8Valid rest
      | _ => false
    else if b = 0xF4 then
      match rest with
      | c1 :: c2 :: c3 :: rest =>
          (0x80 ≤ c1 && c1 ≤ 0x8F) && isCont c2 && isCont c3 && utf8Valid rest
      | _ => false
    else
      false

/-- The outcome of a Rust function that either returns a value or panics;
there is no recoverable-error channel. -/
inductive PanicOr (α : Type) where
  | ok (val : α) : PanicOr α
  | panicked (msg : String) : PanicOr α
  deriving DecidableEq, Repr

/-- `<Artboard as Scene>::name` (artboard/mod.rs:119-133): fetch the
component-name bytes through `rive_rs_component_name`, then
`str::from_utf8(bytes).expect("component name is invalid UTF-8")` — the
string when the bytes are valid UTF-8, a panic otherwise. -/
def Artboard.name (a : RawArtboard) : PanicOr (List Nat) :=
  if utf8Valid a.nameBytes then .ok a.nameBytes
  else .panicked "component name is invalid UTF-8"

/-- Modelled from the spec (§4.5; the `Loop` enum of the missing
`linear_animation.rs`): the playback-policy variants. -/
inductive LoopMode where
  | oneShot : LoopMode
  | loop : LoopMode
  | pingPong : LoopMode
  deriving DecidableEq, Repr

/-- `<Artboard as Scene>::loop` (artboard/mod.rs:135-137): always
`Loop::OneShot`. -/
def Artboard.loopMode (_a : RawArtboard) : LoopMode :=
  .oneShot

/-- `<Artboard as Scene>::is_translucent` (artboard/mod.rs:139-141): always
`false`. -/
def Artboard.is_translucent (_a : RawArtboard) : Bool :=
  false

/-- `<Artboard as Scene>::duration` (artboard/mod.rs:143-145): always `None`
(durations modelled as rational seconds). -/
def Artboard.duration (_a : RawArtboard) : Option ℚ :=
  none

/-- `<Artboard as Scene>::width` (artboard/mod.rs:111-113), reading the
artboard's intrinsic width through the FFI. -/
def Artboard.width (a : RawArtboard) : ℚ :=
  a.width

/-- `<Artboard as Scene>::height` (artboard/mod.rs:115-117), reading the
artboard's intrinsic height through the FFI. -/
def Artboard.height (a : RawArtboard) : ℚ :=
  a.height

/-- Modelled from the spec (§3, "Viewport"; `scene.rs` is not in the provided
sources): pixel `width`/`height` and the cached `inverse_view_transform`, the
fields the source reads and writes (`viewport.width`, `viewport.height`,
`viewport.inverse_view_transform = ...`). -/
structure Viewport where
  width : Nat
  height : Nat
  inverse_view_transform : Affine
  deriving DecidableEq, Repr

/-- One observable step of a frame, for stating ordering properties: the
viewport store, the advance, and the renderer operations. -/
inductive Ev where
  | storeInverse (t : Affine) : Ev
  | advanceAndApply (elapsed : ℚ) : Ev
  | statePush : Ev
  | transform (t : Affine) : Ev
  | draw : Ev
  | statePop : Ev
  deriving DecidableEq, Repr

/-- Modelled from the spec (§4.4; `renderer.rs` and the concrete Vello
renderer are not in the provided sources): the backend state the claims
observe — the depth of the LIFO state stack. -/
structure Renderer where
  depth : Nat
  deriving DecidableEq, Repr

/-- One frame's world: the artboard (raw data plus the count of engine
`rive_rs_artboard_advance` calls as its opaque mutable state), the viewport,
the renderer, and the log of observable steps. -/
structure Frame where
  art : RawArtboard
  advances : Nat
  vp : Viewport
  rend : Renderer
  log : List Ev
  deriving DecidableEq, Repr

/-- `Renderer::state_push` (spec §4.4): save the drawing state, growing the
state stack by one. -/
def statePush (fr : Frame) : Frame :=
  { fr with rend := ⟨fr.rend.depth + 1⟩, log := fr.log ++ [.statePush] }

/-- `Renderer::state_pop` (spec §4.4): restore the most recently saved
drawing state, shrinking the state stack by one. -/
def statePop (fr : Frame) : Frame :=
  { fr with rend := ⟨fr.rend.depth - 1⟩, log := fr.log ++ [.statePop] }

/-- `Renderer::transform` (spec §4.4): compose an affine transform onto the
current state; the state stack is untouched. -/
def rendTransform (fr : Frame) (t : Affine) : Frame :=
  { fr with log := fr.log ++ [.transform t] }

/-- `<Artboard as Scene>::pointer_down` (artboard/mod.rs:147): an empty body. -/
def Artboard.pointer_down (fr : Frame) (_x _y : ℚ) : Frame :=
  fr

/-- `<Artboard as Scene>::pointer_move` (artboard/mod.rs:149): an empty body. -/
def Artboard.pointer_move (fr : Frame) (_x _y : ℚ) : Frame :=
  fr

/-- `<Artboard as Scene>::pointer_up` (artboard/mod.rs:151): an empty body. -/
def Artboard.pointer_up (fr : Frame) (_x _y : ℚ) : Frame :=
  fr

/-- `<Artboard as Scene>::advance_and_apply` (artboard/mod.rs:153-159): call
`rive_rs_artboard_advance` on the engine state and return `true`
unconditionally. -/
def Artboard.advance_and_apply (fr : Frame) (elapsed : ℚ) : Bool × Frame :=
  (true, { fr with advances := fr.advances + 1,
                   log := fr.log ++ [.advanceAndApply elapsed] })

/-- `<Artboard as Scene>::draw` (artboard/mod.rs:161-170): hand the renderer
to `rive_rs_artboard_draw`.  Modelled from the spec (§4.5): the engine's
drawing internally brackets every `state_push` with a matching `state_pop`,
so the call emits its drawing commands with no net change to the state-stack
depth. -/
def Artboard.draw (fr : Frame) : Frame :=
  { fr with log := fr.log ++ [.draw] }

/-- `<Artboard as Scene>::advance_and_maybe_draw` (artboard/mod.rs:172-205):
compute the view transform and its inverse from the viewport's current pixel
dimensions and the artboard's intrinsic size
(`rive_rs_artboard_instance_transforms`); store the inverse on the viewport;
call `advance_and_apply(elapsed)` discarding its result (the early
`return false` is commented out in the source); `state_push`, apply the view
transform, `draw`, `state_pop`; return `true`. -/
def Artboard.advance_and_maybe_draw (fr : Frame) (elapsed : ℚ) :
    Bool × Frame :=
  let view_transform :=
    viewTransform fr.art.width fr.art.height (fr.vp.width : ℚ) (fr.vp.height : ℚ)
  let inverse_view_transform :=
    inverseViewTransform fr.art.width fr.art.height (fr.vp.width : ℚ)
      (fr.vp.height : ℚ)
  let fr := { fr with
    vp := { fr.vp with inverse_view_transform := inverse_view_transform },
    log := fr.log ++ [.storeInverse inverse_view_transform] }
  let (_advanced, fr) := Artboard.advance_and_apply fr elapsed
  let fr := statePush fr
  let fr := rendTransform fr view_transform
  let fr := Artboard.draw fr
  let fr := statePop fr
  (true, fr)

/-- The observable accessors of a boxed `dyn Scene`, the shape the viewer's
fallback chain produces (`main.rs:98-99`). -/
structure DynScene where
  width : ℚ
  height : ℚ
  name : PanicOr (List Nat)
  deriving DecidableEq, Repr

/-- The bare artboard viewed through the `Scene` trait, as `Box::new(artboard)
as Box<dyn rive_rs::Scene>` does. -/
def artboardScene (a : RawArtboard) : DynScene :=
  ⟨Artboard.width a, Artboard.height a, Artboard.name a⟩

/-- The viewer's `DroppedFile` handler tail (`main.rs:98-99`):
`Box::<dyn Scene>::instantiate(&artboard, Handle::Default)
  .unwrap_or_else(|| Box::new(artboard) as Box<dyn Scene>)` — take the
state-machine scene when instantiation produced one, the bare artboard
otherwise. -/
def sceneOrFallback (sm : Option DynScene) (a : RawArtboard) : DynScene :=
  sm.getD (artboardScene a)

/-- On success, `instantiate` leaves the parent with one more strong
reference (the clone held by the new `ArtboardInner`) and the fresh artboard
wrapper at strong count 1; nothing else changes. -/
theorem instantiate_some_state (st : RcState) (f : FfiFile) (h : Handle)
    (r : RawArtboard) (st' : RcState)
    (hsucc : Artboard.instantiate st f h = (some r, st')) :
    st' = { st with fileStrong := st.fileStrong + 1, artStrong := 1 } := by
  unfold Artboard.instantiate at hsucc
  cases ho : (match h with
    | Handle.default => rive_rs_instantiate_artboard f none
    | Handle.index i => rive_rs_instantiate_artboard f (some i)
    | Handle.name n => rive_rs_instantiate_artboard_by_name f n) with
  | none => rw [ho] at hsucc; simp at hsucc
  | some r' => rw [ho] at hsucc; simp at hsucc; exact hsucc.2.symm

/-- Claim C1: for every File and every Artboard successfully instantiated
from it, the artboard's wrapper holds a strong reference to the file's
wrapper: dropping the host's last reference to the file while the artboard is
held leaves the file's resource release count at 0, and the release runs
exactly once, only after the artboard is also dropped. -/
theorem artboard_keeps_file_alive (f : FfiFile) (h : Handle)
    (r : RawArtboard) (st : RcState)
    (hsucc : Artboard.instantiate fileNew f h = (some r, st)) :
    (dropFileRef st).fileReleases = 0 ∧
    (dropFileRef st).fileStrong = 1 ∧
    (dropArtboardRef (dropFileRef st)).fileReleases = 1 ∧
    (dropArtboardRef (dropFileRef st)).fileStrong = 0 := by
  have hst := instantiate_some_state fileNew f h r st hsucc
  subst hst
  refine ⟨?_, ?_, ?_, ?_⟩ <;> simp [fileNew, dropFileRef, dropArtboardRef]

/-- Claim C1, witness: a file with one artboard, instantiated by
`Handle::Default`, then the host's file reference dropped, then the
artboard dropped. -/
theorem artboard_keeps_file_alive_witness :
    Artboard.instantiate fileNew ⟨[⟨[65], 10, 20⟩]⟩ Handle.default =
      (some ⟨[65], 10, 20⟩, ⟨2, 0, 1, 0⟩) ∧
    (dropFileRef ⟨2, 0, 1, 0⟩).fileReleases = 0 ∧
    (dropArtboardRef (dropFileRef ⟨2, 0, 1, 0⟩)).fileReleases = 1 := by
  have := artboard_keeps_file_alive ⟨[⟨[65], 10, 20⟩]⟩ Handle.default
    ⟨[65], 10, 20⟩ ⟨2, 0, 1, 0⟩ (by decide)
  exact ⟨by decide, this.1, this.2.2.1⟩

/-- Claim C3: out-of-range `Index` handles and unmatched `Name` handles make
`instantiate` yield `None`, with the parent's state (its reference count
included) unchanged and no wrapper created. -/
theorem instantiate_miss_is_absence (st : RcState) (f : FfiFile)
    (i : Nat) (n : List Nat)
    (hi : f.artboards.length ≤ i)
    (hn : ∀ a ∈ f.artboards, a.nameBytes ≠ n) :
    Artboard.instantiate st f (.index i) = (none, st) ∧
    Artboard.instantiate st f (.name n) = (none, st) := by
  constructor
  · simp [Artboard.instantiate, rive_rs_instantiate_artboard,
      List.getElem?_eq_none hi]
  · have hfind : f.artboards.find? (fun a => a.nameBytes = n) = none :=
      List.find?_eq_none.mpr (fun a ha => by simpa using hn a ha)
    simp [Artboard.instantiate, rive_rs_instantiate_artboard_by_name, hfind]

/-- Claim C3, witness: a one-artboard file probed with `Index(5)` and with a
name not present. -/
theorem instantiate_miss_is_absence_witness :
    (⟨[⟨[65], 10, 20⟩]⟩ : FfiFile).artboards.length ≤ 5 ∧
    (∀ a ∈ (⟨[⟨[65], 10, 20⟩]⟩ : FfiFile).artboards, a.nameBytes ≠ [66]) ∧
    Artboard.instantiate fileNew ⟨[⟨[65], 10, 20⟩]⟩ (.index 5) =
      (none, fileNew) ∧
    Artboard.instantiate fileNew ⟨[⟨[65], 10, 20⟩]⟩ (.name [66]) =
      (none, fileNew) := by
  have := instantiate_miss_is_absence fileNew ⟨[⟨[65], 10, 20⟩]⟩ 5 [66]
    (by decide) (by decide)
  exact ⟨by decide, by decide, this.1, this.2⟩

/-- Claim C2, counterexample: an artboard whose component-name bytes `[0xFF]`
are not valid UTF-8 makes `name` panic (the `expect` in artboard/mod.rs:132);
there is no recoverable invalid-encoding error. -/
theorem name_invalid_utf8_panics_cex :
    utf8Valid [0xFF] = false ∧
    Artboard.name ⟨[0xFF], 10, 20⟩ =
      .panicked "component name is invalid UTF-8" := by
  decide

/-- Claim C2, amended: for every artboard whose component-name bytes are not
valid UTF-8, `name` panics with message "component name is invalid UTF-8" —
the accessor has no recoverable-error channel. -/
theorem name_invalid_utf8_panics (a : RawArtboard)
    (h : utf8Valid a.nameBytes = false) :
    Artboard.name a = .panicked "component name is invalid UTF-8" := by
  simp [Artboard.name, h]

/-- Claim C2, witness: a lone continuation byte `[0x80]` is invalid UTF-8 and
makes `name` panic. -/
theorem name_invalid_utf8_panics_witness :
    utf8Valid (RawArtboard.mk [0x80] 1 1).nameBytes = false ∧
    Artboard.name ⟨[0x80], 1, 1⟩ =
      .panicked "component name is invalid UTF-8" :=
  ⟨by decide, name_invalid_utf8_panics ⟨[0x80], 1, 1⟩ (by decide)⟩

/-- Claim C7: a bare artboard's `Scene` implementation reports `OneShot` and
a `None` duration, unconditionally. -/
theorem loopMode_oneShot_duration_none (a : RawArtboard) :
    Artboard.loopMode a = .oneShot ∧ Artboard.duration a = none :=
  ⟨rfl, rfl⟩

/-- Claim C8: the bare artboard's `advance_and_apply` returns `true`
unconditionally, for every frame state and elapsed duration. -/
theorem advance_and_apply_returns_true (fr : Frame) (elapsed : ℚ) :
    (Artboard.advance_and_apply fr elapsed).1 = true :=
  rfl

/-- Claim C10: the bare artboard's pointer operations are no-ops: the
artboard's state, the viewport, the renderer and the log are all unchanged. -/
theorem pointer_ops_are_noops (fr : Frame) (x y : ℚ) :
    Artboard.pointer_down fr x y = fr ∧
    Artboard.pointer_move fr x y = fr ∧
    Artboard.pointer_up fr x y = fr :=
  ⟨rfl, rfl, rfl⟩

/-- Claim C6: when state-machine instantiation yields `None`, the viewer's
fallback produces the bare artboard itself, so width, height and name
coincide with the artboard's own. -/
theorem fallback_is_bare_artboard (sm : Option DynScene) (a : RawArtboard)
    (hnone : sm = none) :
    (sceneOrFallback sm a).width = Artboard.width a ∧
    (sceneOrFallback sm a).height = Artboard.height a ∧
    (sceneOrFallback sm a).name = Artboard.name a := by
  subst hnone
  exact ⟨rfl, rfl, rfl⟩

/-- Claim C6, witness. -/
theorem fallback_is_bare_artboard_witness :
    (none : Option DynScene) = none ∧
    (sceneOrFallback none ⟨[65], 10, 20⟩).width =
      Artboard.width ⟨[65], 10, 20⟩ ∧
    (sceneOrFallback none ⟨[65], 10, 20⟩).name =
      Artboard.name ⟨[65], 10, 20⟩ := by
  have := fallback_is_bare_artboard none ⟨[65], 10, 20⟩ rfl
  exact ⟨rfl, this.1, this.2.2⟩

/-- Claim C4: `advance_and_maybe_draw` performs exactly, in order: transform
computation from the viewport's current dimensions and the artboard's
intrinsic size, the inverse-transform store on the viewport, then
`advance_and_apply`, then `state_push`, the view transform, `draw`,
`state_pop`, and returns `true`; in the logged sequence the store strictly
precedes the advance. -/
theorem advance_and_maybe_draw_sequence (fr : Frame) (elapsed : ℚ) :
    (Artboard.advance_and_maybe_draw fr elapsed).1 = true ∧
    (Artboard.advance_and_maybe_draw fr elapsed).2.vp.inverse_view_transform =
      inverseViewTransform fr.art.width fr.art.height (fr.vp.width : ℚ)
        (fr.vp.height : ℚ) ∧
    (Artboard.advance_and_maybe_draw fr elapsed).2.log =
      fr.log ++
        [.storeInverse (inverseViewTransform fr.art.width fr.art.height
            (fr.vp.width : ℚ) (fr.vp.height : ℚ)),
         .advanceAndApply elapsed,
         .statePush,
         .transform (viewTransform fr.art.width fr.art.height
            (fr.vp.width : ℚ) (fr.vp.height : ℚ)),
         .draw,
         .statePop] := by
  refine ⟨rfl, rfl, ?_⟩
  simp [Artboard.advance_and_maybe_draw, Artboard.advance_and_apply,
    statePush, rendTransform, Artboard.draw, statePop]

/-- Claim C5: drawing leaves the renderer's state-stack depth unchanged, both
for a bare `draw` call and for the push/transform/draw/pop bracket inside
`advance_and_maybe_draw`. -/
theorem draw_balances_state_stack (fr : Frame) (elapsed : ℚ) :
    (Artboard.draw fr).rend.depth = fr.rend.depth ∧
    (Artboard.advance_and_maybe_draw fr elapsed).2.rend.depth =
      fr.rend.depth := by
  constructor
  · rfl
  · simp [Artboard.advance_and_maybe_draw, Artboard.advance_and_apply,
      statePush, rendTransform, Artboard.draw, statePop]

/-- The view scale is positive when all four dimensions are. -/
theorem viewScale_pos (cw ch sw sh : ℚ) (hcw : 0 < cw) (hch : 0 < ch)
    (hsw : 0 < sw) (hsh : 0 < sh) : 0 < viewScale cw ch sw sh :=
  lt_min (div_pos hsw hcw) (div_pos hsh hch)

/-- Claim C9: for positive content and surface sizes the view transform is
`[s, 0, 0, s, (sw - cw*s)/2, (sh - ch*s)/2]` with `s = min(sw/cw, sh/ch)`,
and the inverse transform composed with the forward transform is the
identity, hence within `1e-4` of it at every point. -/
theorem view_transform_round_trip (cw ch sw sh : ℚ)
    (hcw : 0 < cw) (hch : 0 < ch) (hsw : 0 < sw) (hsh : 0 < sh) (p : ℚ × ℚ) :
    viewTransform cw ch sw sh =
      ⟨min (sw / cw) (sh / ch), 0, 0, min (sw / cw) (sh / ch),
        (sw - cw * min (sw / cw) (sh / ch)) / 2,
        (sh - ch * min (sw / cw) (sh / ch)) / 2⟩ ∧
    (inverseViewTransform cw ch sw sh).apply
        ((viewTransform cw ch sw sh).apply p) = p ∧
    |((inverseViewTransform cw ch sw sh).apply
        ((viewTransform cw ch sw sh).apply p)).1 - p.1| ≤ 1 / 10000 ∧
    |((inverseViewTransform cw ch sw sh).apply
        ((viewTransform cw ch sw sh).apply p)).2 - p.2| ≤ 1 / 10000 := by
  have hs : 0 < viewScale cw ch sw sh := viewScale_pos cw ch sw sh hcw hch hsw hsh
  have hsne : viewScale cw ch sw sh ≠ 0 := ne_of_gt hs
  have hround : (inverseViewTransform cw ch sw sh).apply
      ((viewTransform cw ch sw sh).apply p) = p := by
    obtain ⟨x, y⟩ := p
    simp only [viewTransform, inverseViewTransform, Affine.apply]
    refine Prod.ext ?_ ?_ <;> (simp only []; field_simp; ring)
  refine ⟨rfl, hround, ?_, ?_⟩ <;> simp [hround]

/-- Claim C9, witness: a 50×50 content on a 100×100 surface (scale 2,
offsets 0) round-trips the point (3, 7). -/
theorem view_transform_round_trip_witness :
    (0 : ℚ) < 50 ∧ (0 : ℚ) < 100 ∧
    (inverseViewTransform 50 50 100 100).apply
        ((viewTransform 50 50 100 100).apply (3, 7)) = (3, 7) :=
  ⟨by norm_num, by norm_num,
    (view_transform_round_trip 50 50 100 100 (by norm_num) (by norm_num)
      (by norm_num) (by norm_num) (3, 7)).2.1⟩

end RiveRs
